import Mathlib

/-!
# Verification of the global-macro-dashboard core (src/app.py)

Shallow embedding, over exact rationals, of the data-normalization and
composite-scoring logic of `src/app.py`, together with the series fetchers,
the yield-spread alignment frame and the composite block.

Conventions:
* Python floats are modelled as `ℚ` (the properties at stake are
  rounding-insensitive linear arithmetic and order facts).
* `None` is `Option.none`; a Python function that can raise an uncaught
  exception returns `Except Unit _`, with `.error ()` standing for the
  propagated exception.
* pandas `NaN` cells are `Option.none` values inside a series.
-/

namespace MacroDash

/-- `np.interp(x, [a, b], [fa, fb])` — numpy's piecewise-linear interpolant
for a two-node list, as used at `src/app.py` lines 225, 228 and 232.
numpy clamps: for `x` below the first node it returns the first output value
(`left` defaults to `fp[0]`) and for `x` at or beyond the last node it returns
the last output value (`right` defaults to `fp[-1]`; an exact hit on the last
node also returns `fp[-1]`); in between it interpolates linearly.  With a
degenerate node list `a = b` the slope branch is never reached, so no division
by zero occurs: the result is `fa` for `x < a` and `fb` for `x ≥ a`. -/
def np_interp (x a b fa fb : ℚ) : ℚ :=
  if x < a then fa
  else if b ≤ x then fb
  else fa + (x - a) / (b - a) * (fb - fa)

/-- `np.clip(x, lo, hi)` (`src/app.py` line 237). -/
def np_clip (x lo hi : ℚ) : ℚ :=
  min (max x lo) hi

/-- Python `int()` applied to a float: truncation toward zero
(`src/app.py` line 237). -/
def py_int (q : ℚ) : ℤ :=
  if 0 ≤ q then ⌊q⌋ else ⌈q⌉

/-- The composite risk-sentiment score of `src/app.py` lines 236–237:
`composite_score = (vix_norm * 0.4) + (spread_norm * 0.4) + (dxy_norm * 0.2)`
then `int(np.clip(composite_score, 0, 100))`. -/
def composite_score (vix_norm spread_norm dxy_norm : ℚ) : ℤ :=
  py_int (np_clip (vix_norm * 0.4 + spread_norm * 0.4 + dxy_norm * 0.2) 0 100)

lemma np_clip_mem (x : ℚ) : 0 ≤ np_clip x 0 100 ∧ np_clip x 0 100 ≤ 100 := by
  unfold np_clip
  constructor
  · exact le_min (le_max_right x 0) (by norm_num)
  · exact min_le_right _ _

lemma composite_score_mem (v s d : ℚ) :
    0 ≤ composite_score v s d ∧ composite_score v s d ≤ 100 := by
  unfold composite_score py_int
  obtain ⟨h0, h1⟩ := np_clip_mem (v * 0.4 + s * 0.4 + d * 0.2)
  rw [if_pos h0]
  constructor
  · exact Int.le_floor.2 (by exact_mod_cast h0)
  · calc ⌊np_clip (v * 0.4 + s * 0.4 + d * 0.2) 0 100⌋
        ≤ ⌊(100 : ℚ)⌋ := Int.floor_le_floor h1
      _ = 100 := by norm_num

/-- The interpolant always lies between its two output nodes. -/
lemma np_interp_mem (x a b fa fb : ℚ) (h0a : 0 ≤ fa) (h1a : fa ≤ 100)
    (h0b : 0 ≤ fb) (h1b : fb ≤ 100) :
    0 ≤ np_interp x a b fa fb ∧ np_interp x a b fa fb ≤ 100 := by
  unfold np_interp
  split_ifs with h1 h2
  · exact ⟨h0a, h1a⟩
  · exact ⟨h0b, h1b⟩
  · push_neg at h1 h2
    have hba : 0 < b - a := by linarith
    have ht0 : 0 ≤ (x - a) / (b - a) := div_nonneg (by linarith) (le_of_lt hba)
    have ht1 : (x - a) / (b - a) ≤ 1 := (div_le_one hba).2 (by linarith)
    constructor
    · nlinarith [mul_nonneg ht0 h0b, mul_nonneg (sub_nonneg.2 ht1) h0a]
    · nlinarith [mul_nonneg ht0 (sub_nonneg.2 h1b),
        mul_nonneg (sub_nonneg.2 ht1) (sub_nonneg.2 h1a)]

/-- Swapping the two output nodes reflects the interpolant. -/
lemma np_interp_flip (x a b fa fb : ℚ) :
    np_interp x a b fa fb = fa + fb - np_interp x a b fb fa := by
  unfold np_interp
  split_ifs <;> ring

/-- For a non-degenerate node interval the interpolant agrees with the
interpolation formula applied to the input clamped into `[a, b]`. -/
lemma np_interp_eq_clamped (x a b fa fb : ℚ) (hab : a < b) :
    np_interp x a b fa fb = fa + (np_clip x a b - a) / (b - a) * (fb - fa) := by
  have hba : (b - a) ≠ 0 := by intro h; apply absurd hab; linarith [sub_eq_zero.1 h]
  unfold np_interp np_clip
  split_ifs with h1 h2
  · rw [max_eq_right (le_of_lt h1), min_eq_left (le_of_lt hab)]
    ring
  · rw [max_eq_left (by linarith), min_eq_right (by linarith)]
    field_simp
  · push_neg at h1 h2
    rw [max_eq_left h1, min_eq_left (le_of_lt h2)]

/-- With increasing output nodes the interpolant is monotone in `x`. -/
lemma np_interp_mono (a b fa fb : ℚ) (hab : a < b) (hf : fa ≤ fb)
    {x y : ℚ} (hxy : x ≤ y) :
    np_interp x a b fa fb ≤ np_interp y a b fa fb := by
  rw [np_interp_eq_clamped x a b fa fb hab, np_interp_eq_clamped y a b fa fb hab]
  have hba : 0 < b - a := by linarith
  have hc : np_clip x a b ≤ np_clip y a b :=
    min_le_min (max_le_max hxy (le_refl a)) (le_refl b)
  have h1 : (np_clip x a b - a) / (b - a) ≤ (np_clip y a b - a) / (b - a) :=
    (div_le_div_iff_of_pos_right hba).2 (by linarith)
  nlinarith [mul_le_mul_of_nonneg_right h1 (sub_nonneg.2 hf)]

/-- C4 counterexample: `np.interp` (the interpolation primitive the source
uses at `src/app.py` lines 225, 228, 232) is NOT clamp-free.  At the
out-of-domain input 300 over the spread normalizer's domain `[-200, 200]` and
range `[100, 0]`, the unclamped linear-interpolation formula of the claim
yields −25, but the primitive clamps and returns 0. -/
theorem np_interp_not_unclamped :
    np_interp 300 (-200) 200 100 0 = 0 ∧
    (100 : ℚ) + (300 - (-200)) / (200 - (-200)) * (0 - 100) = -25 ∧
    np_interp 300 (-200) 200 100 0 ≠
      100 + (300 - (-200)) / (200 - (-200)) * (0 - 100) := by
  norm_num [np_interp]

/-- C4 amended: for inputs outside a non-degenerate domain `[a, b]` the
normalizer clamps — a value below `a` maps to `range_min` and a value at or
above `b` maps to `range_max` — while inside the domain it is the linear
interpolation `range_min + (value − a) / (b − a) * (range_max − range_min)`;
out-of-domain inputs never map outside `[range_min, range_max]`. -/
theorem np_interp_out_of_domain (x a b fa fb : ℚ) (hab : a < b) :
    (x < a → np_interp x a b fa fb = fa) ∧
    (b ≤ x → np_interp x a b fa fb = fb) ∧
    (a ≤ x → x < b →
      np_interp x a b fa fb = fa + (x - a) / (b - a) * (fb - fa)) := by
  refine ⟨fun h => ?_, fun h => ?_, fun h1 h2 => ?_⟩
  · unfold np_interp; rw [if_pos h]
  · unfold np_interp; rw [if_neg (by linarith), if_pos h]
  · unfold np_interp; rw [if_neg (by linarith), if_neg (by linarith)]

/-- Witness for `np_interp_out_of_domain` at the spread normalizer's
constants: a below-domain, an above-domain and an in-domain input. -/
theorem np_interp_out_of_domain_witness :
    np_interp (-300) (-200) 200 100 0 = 100 ∧
    np_interp 300 (-200) 200 100 0 = 0 ∧
    np_interp 0 (-200) 200 100 0 =
      100 + (0 - (-200)) / (200 - (-200)) * (0 - 100) :=
  ⟨(np_interp_out_of_domain (-300) (-200) 200 100 0 (by norm_num)).1
      (by norm_num),
   (np_interp_out_of_domain 300 (-200) 200 100 0 (by norm_num)).2.1
      (by norm_num),
   (np_interp_out_of_domain 0 (-200) 200 100 0 (by norm_num)).2.2
      (by norm_num) (by norm_num)⟩

/-- C7 counterexample: on a degenerate domain the primitive does not return
the midpoint of the output range: `np.interp(5, [5, 5], [0, 100])` returns
100 (the last output node), not 50. -/
theorem np_interp_degenerate_not_midpoint :
    np_interp 5 5 5 0 100 = 100 ∧ np_interp 5 5 5 0 100 ≠ 50 := by
  norm_num [np_interp]

/-- C7 amended: with a degenerate domain `[m, m]` the normalizer returns
`range_min` for inputs below `m` and `range_max` for inputs at or above `m`
(an endpoint of the output range, not its midpoint); no division by zero
occurs, the result being defined for every input. -/
theorem np_interp_degenerate (v m rmin rmax : ℚ) :
    np_interp v m m rmin rmax = if v < m then rmin else rmax := by
  unfold np_interp
  split_ifs <;> first | rfl | linarith

/-- C9: over a non-degenerate domain `[a, b]` the normalizer maps `a` to
`range_min` and `b` to `range_max`, and it is monotone in the value —
monotonically increasing when `range_min ≤ range_max` and monotonically
decreasing for inverted ranges such as `[100, 0]`. -/
theorem np_interp_monotone_endpoints (a b fa fb : ℚ) (hab : a < b) :
    np_interp a a b fa fb = fa ∧ np_interp b a b fa fb = fb ∧
    (fa ≤ fb → ∀ x y : ℚ, x ≤ y →
      np_interp x a b fa fb ≤ np_interp y a b fa fb) ∧
    (fb ≤ fa → ∀ x y : ℚ, x ≤ y →
      np_interp y a b fa fb ≤ np_interp x a b fa fb) := by
  refine ⟨?_, ?_, fun hf x y hxy => np_interp_mono a b fa fb hab hf hxy,
    fun hf x y hxy => ?_⟩
  · unfold np_interp
    rw [if_neg (lt_irrefl a), if_neg (by linarith)]
    norm_num
  · unfold np_interp
    rw [if_neg (by linarith), if_pos (le_refl b)]
  · have h := np_interp_mono a b fb fa hab hf hxy
    rw [np_interp_flip x a b fa fb, np_interp_flip y a b fa fb]
    linarith

/-- Witness for `np_interp_monotone_endpoints`: the VIX normalizer direction
on domain `[10, 30]` with range `[0, 100]`, and the inverted EUR/USD
normalizer with range `[100, 0]`, each evaluated at a concrete pair. -/
theorem np_interp_monotone_endpoints_witness :
    np_interp 10 10 30 0 100 = 0 ∧ np_interp 30 10 30 0 100 = 100 ∧
    np_interp 15 10 30 0 100 ≤ np_interp 20 10 30 0 100 ∧
    np_interp 20 10 30 100 0 ≤ np_interp 15 10 30 100 0 :=
  ⟨(np_interp_monotone_endpoints 10 30 0 100 (by norm_num)).1,
   (np_interp_monotone_endpoints 10 30 0 100 (by norm_num)).2.1,
   (np_interp_monotone_endpoints 10 30 0 100 (by norm_num)).2.2.1
      (by norm_num) 15 20 (by norm_num),
   (np_interp_monotone_endpoints 10 30 100 0 (by norm_num)).2.2.2
      (by norm_num) 15 20 (by norm_num)⟩

/-- C1: the composite score is the fixed-weight sum
`0.4 * vix_norm + 0.4 * spread_norm + 0.2 * dxy_norm`, clamped to `[0, 100]`
and truncated toward zero to an integer; for every (rational-valued) triple of
factor inputs, in-range or not, the result is an integer in `[0, 100]`, with
`composite_score 100 100 100 = 100` and `composite_score 0 0 0 = 0`. -/
theorem composite_score_spec (v s d : ℚ) :
    composite_score v s d =
      py_int (np_clip (0.4 * v + 0.4 * s + 0.2 * d) 0 100) ∧
    0 ≤ composite_score v s d ∧ composite_score v s d ≤ 100 ∧
    composite_score 100 100 100 = 100 ∧ composite_score 0 0 0 = 0 := by
  refine ⟨by unfold composite_score; ring_nf, (composite_score_mem v s d).1,
    (composite_score_mem v s d).2, ?_, ?_⟩
  · unfold composite_score np_clip py_int
    norm_num
  · unfold composite_score np_clip py_int
    norm_num

/-- `vix_norm` of the composite block (`src/app.py` lines 220, 224–225):
initialized to 50 and, when the VIX series is non-empty, replaced by
`np.interp(vix_series.iloc[-1], [vix_series.min(), vix_series.max()], [0,100])`. -/
def vix_norm_of : List ℚ → ℚ
  | [] => 50
  | x :: xs => np_interp (xs.getLastD x) (xs.foldl min x) (xs.foldl max x) 0 100

/-- `spread_norm` of the composite block (`src/app.py` lines 221, 226–228):
initialized to 50; when both yield series were fetched,
`latest_spread = us10.iloc[-1] - us2.iloc[-1]` if both are non-empty else 0,
then `np.interp(latest_spread, [-200, 200], [100, 0])`. -/
def spread_norm_of : Option (List ℚ) → Option (List ℚ) → ℚ
  | some us10, some us2 =>
      np_interp
        (if 0 < us10.length ∧ 0 < us2.length
         then us10.getLastD 0 - us2.getLastD 0 else 0)
        (-200) 200 100 0
  | _, _ => 50

/-- `dxy_norm` of the composite block (`src/app.py` lines 222, 229–232):
initialized to 50 and, when the EUR/USD series is non-empty, replaced by
`np.interp(latest_eurusd, [min, max], [100, 0])` (inverted range). -/
def dxy_norm_of : List ℚ → ℚ
  | [] => 50
  | x :: xs => np_interp (xs.getLastD x) (xs.foldl min x) (xs.foldl max x) 100 0

/-- The whole composite block (`src/app.py` lines 219–237) as a function of
the fetched series: VIX prices, the two optional yield series, EUR/USD prices. -/
def composite_block (vix : List ℚ) (us10 us2 : Option (List ℚ))
    (eurusd : List ℚ) : ℤ :=
  composite_score (vix_norm_of vix) (spread_norm_of us10 us2) (dxy_norm_of eurusd)

lemma vix_norm_of_mem (l : List ℚ) :
    0 ≤ vix_norm_of l ∧ vix_norm_of l ≤ 100 := by
  cases l with
  | nil => norm_num [vix_norm_of]
  | cons x xs =>
      exact np_interp_mem _ _ _ _ _ (by norm_num) (by norm_num)
        (by norm_num) (by norm_num)

lemma spread_norm_of_mem (o10 o2 : Option (List ℚ)) :
    0 ≤ spread_norm_of o10 o2 ∧ spread_norm_of o10 o2 ≤ 100 := by
  cases o10 with
  | none => norm_num [spread_norm_of]
  | some us10 =>
      cases o2 with
      | none => norm_num [spread_norm_of]
      | some us2 =>
          exact np_interp_mem _ _ _ _ _ (by norm_num) (by norm_num)
            (by norm_num) (by norm_num)

lemma dxy_norm_of_mem (l : List ℚ) :
    0 ≤ dxy_norm_of l ∧ dxy_norm_of l ≤ 100 := by
  cases l with
  | nil => norm_num [dxy_norm_of]
  | cons x xs =>
      exact np_interp_mem _ _ _ _ _ (by norm_num) (by norm_num)
        (by norm_num) (by norm_num)

/-- C2: evaluation of the spread factor as coded.  At `src/app.py` line 227
the latest spread is `us10.iloc[-1] - us2.iloc[-1]` in percentage points and
is fed to the `[-200, 200] → [100, 0]` normalizer without the basis-point
conversion (`* 100`) that line 120 applies for the chart.  With
`us10 = [3.0]` and `us2 = [1.0]` — a 2.00 pp = 200 bps spread — the code
yields 99/2 = 49.5, whereas normalizing the bps value 200 as the claim states
yields 0; a spread of exactly 0 still normalizes to exactly 50. -/
theorem spread_norm_missing_bps_conversion :
    spread_norm_of (some [3]) (some [1]) = 99 / 2 ∧
    np_interp ((3 - 1) * 100) (-200) 200 100 0 = 0 ∧
    np_interp 0 (-200) 200 100 0 = 50 := by
  norm_num [spread_norm_of, np_interp]

/-- C5: whenever a factor's upstream data is missing — an empty VIX series,
an absent yield series on either side, an empty EUR/USD series — the block
keeps the neutral default 50 for that factor, and the composite score is
still a value in `[0, 100]` rather than a failure. -/
theorem composite_absent_defaults (vix : List ℚ) (us10 us2 : Option (List ℚ))
    (eurusd : List ℚ) :
    (vix = [] → vix_norm_of vix = 50) ∧
    (us10 = none ∨ us2 = none → spread_norm_of us10 us2 = 50) ∧
    (eurusd = [] → dxy_norm_of eurusd = 50) ∧
    0 ≤ composite_block vix us10 us2 eurusd ∧
    composite_block vix us10 us2 eurusd ≤ 100 := by
  refine ⟨fun h => by rw [h]; rfl, fun h => ?_, fun h => by rw [h]; rfl,
    (composite_score_mem _ _ _).1, (composite_score_mem _ _ _).2⟩
  rcases h with h | h
  · rw [h]; rfl
  · rw [h]; cases us10 <;> rfl

/-- Witness for `composite_absent_defaults`: all three factors absent. -/
theorem composite_absent_defaults_witness :
    vix_norm_of [] = 50 ∧ spread_norm_of none none = 50 ∧
    dxy_norm_of [] = 50 ∧
    0 ≤ composite_block [] none none [] ∧
    composite_block [] none none [] ≤ 100 :=
  ⟨(composite_absent_defaults [] none none []).1 rfl,
   (composite_absent_defaults [] none none []).2.1 (Or.inl rfl),
   (composite_absent_defaults [] none none []).2.2.1 rfl,
   (composite_absent_defaults [] none none []).2.2.2.1,
   (composite_absent_defaults [] none none []).2.2.2.2⟩

/-- C10: every factor the composite block actually produces — defaulted to 50
or computed by the clamping interpolation primitive — lies in `[0, 100]`, so
the weighted sum lies in `[0, 100]` before the final clamp and
`np.clip(·, 0, 100)` leaves it unchanged. -/
theorem composite_clip_is_noop (vix : List ℚ) (us10 us2 : Option (List ℚ))
    (eurusd : List ℚ) :
    (0 ≤ vix_norm_of vix ∧ vix_norm_of vix ≤ 100) ∧
    (0 ≤ spread_norm_of us10 us2 ∧ spread_norm_of us10 us2 ≤ 100) ∧
    (0 ≤ dxy_norm_of eurusd ∧ dxy_norm_of eurusd ≤ 100) ∧
    (0 ≤ vix_norm_of vix * 0.4 + spread_norm_of us10 us2 * 0.4 +
          dxy_norm_of eurusd * 0.2 ∧
      vix_norm_of vix * 0.4 + spread_norm_of us10 us2 * 0.4 +
          dxy_norm_of eurusd * 0.2 ≤ 100) ∧
    np_clip (vix_norm_of vix * 0.4 + spread_norm_of us10 us2 * 0.4 +
        dxy_norm_of eurusd * 0.2) 0 100 =
      vix_norm_of vix * 0.4 + spread_norm_of us10 us2 * 0.4 +
        dxy_norm_of eurusd * 0.2 := by
  obtain ⟨hv0, hv1⟩ := vix_norm_of_mem vix
  obtain ⟨hs0, hs1⟩ := spread_norm_of_mem us10 us2
  obtain ⟨hd0, hd1⟩ := dxy_norm_of_mem eurusd
  have h0 : 0 ≤ vix_norm_of vix * 0.4 + spread_norm_of us10 us2 * 0.4 +
      dxy_norm_of eurusd * 0.2 := by nlinarith
  have h1 : vix_norm_of vix * 0.4 + spread_norm_of us10 us2 * 0.4 +
      dxy_norm_of eurusd * 0.2 ≤ 100 := by nlinarith
  refine ⟨⟨hv0, hv1⟩, ⟨hs0, hs1⟩, ⟨hd0, hd1⟩, ⟨h0, h1⟩, ?_⟩
  unfold np_clip
  rw [max_eq_left h0, min_eq_left h1]

/-! ## Series fetchers (`src/app.py` lines 16–60)

The HTTP layer is abstracted into an outcome: the request raised, the body
was not JSON, or a JSON payload with an `observations` list arrived.  A FRED
observation value is a string; `float(val)` succeeding or failing is captured
by the two constructors of `ObsValue`. -/

/-- A FRED observation value string: either one that Python `float()`
accepts (carrying its numeric value) or one it rejects, such as the null
sentinel `"."`. -/
inductive ObsValue where
  | numeric (q : ℚ)
  | sentinel (s : String)
deriving DecidableEq

/-- One entry of the FRED `observations` list: a `date` and a `value`. -/
structure Observation where
  date : String
  value : ObsValue
deriving DecidableEq

/-- Outcome of the HTTP exchange inside a FRED fetch. -/
inductive FetchOutcome where
  | networkFailure
  | badJson
  | payload (obs : List Observation)
deriving DecidableEq

/-- A Python value that is either a float or a string, as returned in the
first slot of `fred_series_latest`'s pair. -/
inductive PyVal where
  | num (q : ℚ)
  | str (s : String)
deriving DecidableEq

/-- `if not api_key:` — true for `None` and for the empty string. -/
def keyMissing : Option String → Bool
  | none => true
  | some s => s.isEmpty

/-- `fred_series_latest` (`src/app.py` lines 16–32).  Returns `None` without
a key; the whole body is inside `try/except Exception: return None`, so a
raised request or JSON parse collapses to `None`; an empty observations list
falls through to `None`; otherwise `float(val)` is attempted and on failure
the raw string is returned with its date.  `.error ()` would model an
uncaught exception escaping to the caller; this function never produces it. -/
def fred_series_latest (apiKey : Option String) (outcome : FetchOutcome) :
    Except Unit (Option (PyVal × String)) :=
  if keyMissing apiKey then .ok none
  else
    match outcome with
    | .networkFailure => .ok none
    | .badJson => .ok none
    | .payload [] => .ok none
    | .payload (o :: _) =>
        match o.value with
        | .numeric q => .ok (some (.num q, o.date))
        | .sentinel s => .ok (some (.str s, o.date))

/-- `pd.to_numeric(·, errors='coerce')` on one value: a non-numeric string
becomes NaN, modelled as `none`. -/
def to_numeric_coerce : ObsValue → Option ℚ
  | .numeric q => some q
  | .sentinel _ => none

/-- `fred_series_df` (`src/app.py` lines 34–49).  Returns `None` without a
key; `requests.get` and `r.json()` are NOT wrapped in `try/except`, so a
network failure or non-JSON body raises out of the function (`.error ()`);
an empty observations list gives `None`; otherwise the values are coerced
(sentinels to NaN) and the series of `(date, value)` rows is returned. -/
def fred_series_df (apiKey : Option String) (outcome : FetchOutcome) :
    Except Unit (Option (List (String × Option ℚ))) :=
  if keyMissing apiKey then .ok none
  else
    match outcome with
    | .networkFailure => .error ()
    | .badJson => .error ()
    | .payload [] => .ok none
    | .payload obs =>
        .ok (some (obs.map fun o => (o.date, to_numeric_coerce o.value)))

/-- Outcome of the price download inside `yfin_download`. -/
inductive PriceOutcome where
  | failure
  | prices (closes : List ℚ)
deriving DecidableEq

/-- `yfin_download` (`src/app.py` lines 51–60): the body is inside
`try/except Exception`, returning the `Close` column when the frame is
non-empty and an empty float series on an empty frame or any exception. -/
def yfin_download (outcome : PriceOutcome) : Except Unit (List ℚ) :=
  match outcome with
  | .failure => .ok []
  | .prices closes => .ok closes

/-- Does the `Except` carry a value (no exception escaped)? -/
def exceptOk : Except Unit (Option (List (String × Option ℚ))) → Bool
  | .ok _ => true
  | .error _ => false

/-- C3 counterexample: the historical-series fetch DOES propagate a fatal
exception — with a credential present, a network failure inside
`fred_series_df` (whose `requests.get` call is not inside any `try`) escapes
to the caller instead of collapsing to an Absent value. -/
theorem fred_series_df_network_failure_fatal :
    fred_series_df (some "key") .networkFailure = .error () ∧
    fred_series_df (some "key") .badJson = .error () := by
  exact ⟨rfl, rfl⟩

/-- C3 amended: the latest-value fetch and the price download never let a
failure escape (network failure, malformed payload and missing credential all
collapse to `None` / an empty series), and the historical-series fetch
returns without an exception exactly when the credential is missing or the
HTTP exchange produced a JSON payload: with a credential present it
propagates network failures and non-JSON bodies as fatal exceptions. -/
theorem fetch_errors_not_fatal_except_df (apiKey : Option String)
    (fo : FetchOutcome) (po : PriceOutcome) :
    (∃ r, fred_series_latest apiKey fo = .ok r) ∧
    (∃ l, yfin_download po = .ok l) ∧
    (exceptOk (fred_series_df apiKey fo) = true ↔
      keyMissing apiKey = true ∨ ∃ obs, fo = .payload obs) := by
  refine ⟨?_, ?_, ?_⟩
  · unfold fred_series_latest
    split_ifs
    · exact ⟨none, rfl⟩
    · cases fo with
      | networkFailure => exact ⟨none, rfl⟩
      | badJson => exact ⟨none, rfl⟩
      | payload obs =>
          cases obs with
          | nil => exact ⟨none, rfl⟩
          | cons o rest =>
              cases h : o.value with
              | numeric q => exact ⟨some (.num q, o.date), by
                  simp [fred_series_latest, h]⟩
              | sentinel s => exact ⟨some (.str s, o.date), by
                  simp [fred_series_latest, h]⟩
  · cases po with
    | failure => exact ⟨[], rfl⟩
    | prices closes => exact ⟨closes, rfl⟩
  · unfold fred_series_df
    split_ifs with hk
    · simp [exceptOk, hk]
    · cases fo with
      | networkFailure => simp [exceptOk, hk]
      | badJson => simp [exceptOk, hk]
      | payload obs => cases obs <;> simp [exceptOk]

/-- Witness for `fetch_errors_not_fatal_except_df`: a present key with a
network failure on the FRED side and a failed price download. -/
theorem fetch_errors_not_fatal_except_df_witness :
    (∃ r, fred_series_latest (some "key") .networkFailure = .ok r) ∧
    (∃ l, yfin_download .failure = .ok l) ∧
    (exceptOk (fred_series_df (some "key") .networkFailure) = true ↔
      keyMissing (some "key") = true ∨
        ∃ obs, FetchOutcome.networkFailure = .payload obs) :=
  fetch_errors_not_fatal_except_df (some "key") .networkFailure .failure

/-- C6 counterexample: the latest-value fetch does not collapse the FRED
null sentinel `"."` to Absent — `float(".")` fails and the `except` branch
at `src/app.py` line 30 returns the raw string paired with its date, so the
caller receives `(".", date)`, not `None`. -/
theorem fred_latest_sentinel_not_absent :
    fred_series_latest (some "key")
        (.payload [⟨"2024-01-01", .sentinel "."⟩]) =
      .ok (some (.str ".", "2024-01-01")) ∧
    fred_series_latest (some "key")
        (.payload [⟨"2024-01-01", .sentinel "."⟩]) ≠ .ok none := by
  refine ⟨rfl, fun h => ?_⟩
  simp [fred_series_latest, keyMissing] at h
  exact absurd h (by decide)

/-- C6 amended: neither FRED fetch raises a parse error on the sentinel
`"."`; the historical fetch coerces it to NaN (an absent value in that
observation's slot), while the latest-value fetch catches the `float()`
failure and returns the raw sentinel string with its date instead of
Absent. -/
theorem fred_sentinel_handling (k : String) (hk : k.isEmpty = false)
    (d : String) (rest : List Observation) :
    fred_series_df (some k) (.payload (⟨d, .sentinel "."⟩ :: rest)) =
      .ok (some ((d, none) ::
        rest.map fun o => (o.date, to_numeric_coerce o.value))) ∧
    fred_series_latest (some k) (.payload (⟨d, .sentinel "."⟩ :: rest)) =
      .ok (some (.str ".", d)) := by
  constructor
  · simp [fred_series_df, keyMissing, hk, to_numeric_coerce]
  · simp [fred_series_latest, keyMissing, hk]

/-- Witness for `fred_sentinel_handling` at a one-observation payload. -/
theorem fred_sentinel_handling_witness :
    fred_series_df (some "key") (.payload [⟨"2024-01-01", .sentinel "."⟩]) =
      .ok (some [("2024-01-01", none)]) ∧
    fred_series_latest (some "key")
        (.payload [⟨"2024-01-01", .sentinel "."⟩]) =
      .ok (some (.str ".", "2024-01-01")) :=
  ⟨(fred_sentinel_handling "key" rfl "2024-01-01" []).1,
   (fred_sentinel_handling "key" rfl "2024-01-01" []).2⟩

/-! ## The spread frame (`src/app.py` lines 119–121)

`pd.DataFrame({"10Y": us10, "2Y": us2, "10y-2y (bps)": (us10 - us2) * 100})`
outer-aligns the series on the union of their date indexes, leaving NaN where
a date is missing from one of them (the spread column is NaN wherever either
yield is), and `.dropna()` then removes every row holding any NaN — an inner
join on the dates carrying values in both series.  Dates are modelled as
`Nat`, a series as its list of `(date, cell)` rows with `none` for a NaN
cell. -/

/-- The cell of the outer-aligned frame at date `d` for series `s`: `none`
when `d` is missing from `s`'s index or the stored cell is NaN. -/
def cellAt : List (Nat × Option ℚ) → Nat → Option ℚ
  | [], _ => none
  | (k, v) :: rest, d => if k = d then v else cellAt rest d

/-- The union of the two date indexes. -/
def unionKeys (a b : List (Nat × Option ℚ)) : List Nat :=
  a.map Prod.fst ++
    ((b.map Prod.fst).filter fun d => !(a.map Prod.fst).contains d)

/-- `df_spread` (`src/app.py` lines 120–121): the rows surviving `.dropna()`,
each carrying the 10-year yield, the 2-year yield and the spread column
`(us10 - us2) * 100`. -/
def df_spread (us10 us2 : List (Nat × Option ℚ)) :
    List (Nat × ℚ × ℚ × ℚ) :=
  (unionKeys us10 us2).filterMap fun d =>
    match cellAt us10 d, cellAt us2 d with
    | some v10, some v2 => some (d, v10, v2, (v10 - v2) * 100)
    | _, _ => none

/-- The guard at `src/app.py` line 119: when either fetch returned `None`,
no frame is built at all — an empty frame. -/
def df_spread_opt :
    Option (List (Nat × Option ℚ)) → Option (List (Nat × Option ℚ)) →
      List (Nat × ℚ × ℚ × ℚ)
  | some a, some b => df_spread a b
  | _, _ => []

lemma cellAt_isSome_mem (s : List (Nat × Option ℚ)) (d : Nat)
    (h : (cellAt s d).isSome = true) : d ∈ s.map Prod.fst := by
  induction s with
  | nil => simp [cellAt] at h
  | cons p rest ih =>
      obtain ⟨k, v⟩ := p
      rw [cellAt] at h
      by_cases hk : k = d
      · simp [hk]
      · rw [if_neg hk] at h
        simp only [List.map_cons, List.mem_cons]
        exact Or.inr (ih h)

/-- C8: the spread frame is an inner join on dates — a date appears in it
exactly when both input series carry a (non-NaN) value at that date; an
empty or absent input collapses the frame to the empty frame; and on series
with dates `{1,2,3}` and `{2,3,4}` the frame holds exactly the dates
`[2, 3]`. -/
theorem df_spread_inner_join (a b : List (Nat × Option ℚ)) (d : Nat)
    (oa ob : Option (List (Nat × Option ℚ))) :
    (d ∈ (df_spread a b).map Prod.fst ↔
      (cellAt a d).isSome = true ∧ (cellAt b d).isSome = true) ∧
    (a = [] → df_spread a b = []) ∧
    (b = [] → df_spread a b = []) ∧
    (oa = none ∨ ob = none → df_spread_opt oa ob = []) ∧
    (df_spread [(1, some 1), (2, some 2), (3, some 3)]
        [(2, some 4), (3, some 5), (4, some 6)]).map Prod.fst = [2, 3] := by
  refine ⟨⟨?_, ?_⟩, ?_, ?_, ?_, by rfl⟩
  · intro hd
    obtain ⟨row, hrow, hfst⟩ := List.mem_map.1 hd
    obtain ⟨d', hd', hf⟩ := List.mem_filterMap.1 hrow
    cases h10 : cellAt a d' with
    | none => rw [h10] at hf; exact absurd hf (by simp)
    | some v10 =>
        cases h2 : cellAt b d' with
        | none => rw [h10, h2] at hf; exact absurd hf (by simp)
        | some v2 =>
            rw [h10, h2] at hf
            have hr : (d', v10, v2, (v10 - v2) * 100) = row :=
              Option.some.inj hf
            rw [← hr] at hfst
            obtain rfl : d' = d := hfst
            rw [h10, h2]
            exact ⟨rfl, rfl⟩
  · rintro ⟨ha, hb⟩
    obtain ⟨v10, h10⟩ := Option.isSome_iff_exists.1 ha
    obtain ⟨v2, h2⟩ := Option.isSome_iff_exists.1 hb
    refine List.mem_map.2 ⟨(d, v10, v2, (v10 - v2) * 100),
      List.mem_filterMap.2 ⟨d, ?_, by rw [h10, h2]⟩, rfl⟩
    exact List.mem_append_left _ (cellAt_isSome_mem a d ha)
  · intro h
    subst h
    refine List.filterMap_eq_nil_iff.2 fun d' _ => rfl
  · intro h
    subst h
    refine List.filterMap_eq_nil_iff.2 fun d' _ => ?_
    cases cellAt a d' <;> rfl
  · rintro (h | h) <;> subst h
    · rfl
    · cases oa <;> rfl

/-- Witness for `df_spread_inner_join`: the empty/absent-input cases at
concrete series, and the membership criterion evaluated at date 2. -/
theorem df_spread_inner_join_witness :
    df_spread [] [(1, some 2)] = [] ∧
    df_spread [(1, some 1)] [] = [] ∧
    df_spread_opt none (some [(1, some 2)]) = [] ∧
    ((2 : Nat) ∈ (df_spread [(1, some 1), (2, some 2)]
        [(2, some 4)]).map Prod.fst ↔
      (cellAt [(1, some 1), (2, some 2)] 2).isSome = true ∧
        (cellAt [(2, some 4)] 2).isSome = true) :=
  ⟨(df_spread_inner_join [] [(1, some 2)] 0 none none).2.1 rfl,
   (df_spread_inner_join [(1, some 1)] [] 0 none none).2.2.1 rfl,
   (df_spread_inner_join [] [] 0 none (some [(1, some 2)])).2.2.2.1
      (Or.inl rfl),
   (df_spread_inner_join [(1, some 1), (2, some 2)] [(2, some 4)] 2
      none none).1⟩

end MacroDash
